import Mathlib

/-!
Verification of the executor selection and dispatch framework of the
`intel_cpu` plugin (fully-connected executor subsystem).

Shallow embedding of:
- `nodes/executors/precision_matcher.cpp`  (type-mask matching)
- `nodes/executors/precision_translation.{hpp,cpp}`  (rule tables, `getTypeConfiguration`)
- `nodes/executors/fullyconnected_implementations.cpp`
  (`fullyMatchConfiguration`, `createOptimalDescriptors`, `isFullyCompliantCommon`,
   the `dnnlFCTypeMapping` rule table, the `fullyconnected_dnnl` implementation)
- `nodes/executors/executor_factory.hpp`  (`ExecutorFactoryNew::filter`, `::select`)
- `nodes/executors/fullyconnected_config.hpp`  (`FCAttrs`, in particular its `operator==`)

Pure functions of the source become Lean functions; the two fatal
`OPENVINO_ASSERT`s in `filter`/`select` are modelled by `Except String` results.
-/

namespace OvCpu

/-- Element types of `ov::element::Type` that the embedded code paths inspect.
`undefined` is the distinguished "no precision" value used by the compliance
check and the coercion. -/
inductive ElementType where
  | undefined
  | f64
  | f32
  | f16
  | bf16
  | i64
  | i32
  | i8
  | u8
  | i4
  | u4
  | nf4
  deriving DecidableEq, Repr

/-- Physical layout tags (`LayoutType` of the cpu plugin). Only `ncsp` appears
in the embedded rule tables; the remaining tags exist so that a descriptor can
fail the layout check. -/
inductive LayoutType where
  | ncsp
  | nspc
  | nCsp8c
  | nCsp16c
  deriving DecidableEq, Repr

/-- Memory descriptor as observed by the embedded code: element precision,
layout tag and shape dims.  `hasLayoutType` of the source is layout-tag
equality here; `getShape().getRank()` is `dims.length`. -/
structure MemoryDesc where
  precision : ElementType
  layout : LayoutType
  dims : List Nat
  deriving DecidableEq, Repr

/-- Default descriptor used as the `getD` fall-back value in statements about
list indexing (never observed on in-range indices). -/
def defaultDesc : MemoryDesc := { precision := .undefined, layout := .ncsp, dims := [] }

/-- `MemoryDesc::hasLayoutType`: the descriptor carries the given layout tag. -/
def MemoryDesc.hasLayoutType (d : MemoryDesc) (l : LayoutType) : Bool :=
  d.layout == l

/-- `MemoryDescArgs` of `memory_arguments.hpp`: ordered source and destination
descriptor lists. -/
structure MemoryDescArgs where
  src : List MemoryDesc
  dst : List MemoryDesc
  deriving DecidableEq, Repr

/-- Modelled from the spec: `TypeMask` (defined outside the excerpt) is a
bitmask over element types; `pattern & value` tests membership of `value` in
the mask, so a mask is embedded as its characteristic function. -/
abbrev TypeMask : Type := ElementType → Bool

/-- `match(const TypeMask, const Type)` of `precision_matcher.cpp`:
`pattern & value`. (`match` is a Lean keyword, hence the name.) -/
def matchMask (pattern : TypeMask) (value : ElementType) : Bool :=
  pattern value

/-- `match(const std::vector<TypeMask>&, const std::vector<Type>&)` of
`precision_matcher.cpp`: `std::equal` driven by the value list, each value
checked against the positionally corresponding mask.  The source asserts
`values.size() <= patterns.size()`; a longer value list is out of contract and
modelled as a mismatch. -/
def matchMasks : List TypeMask → List ElementType → Bool
  | _, [] => true
  | p :: ps, v :: vs => p v && matchMasks ps vs
  | [], _ :: _ => false

/-- `InOutTypes`: desired input types plus the desired output type. -/
abbrev InOutTypes : Type := List ElementType × ElementType

/-- `PortsConfigurationImpl`: a rule's translation function. -/
abbrev PortsConfigurationImpl : Type := List ElementType → ElementType → InOutTypes

/-- `InOutTypeMask`: a rule's input mask tuple and output mask. -/
abbrev InOutTypeMask : Type := List TypeMask × TypeMask

/-- `TypeMapping`: ordered rule table, first structural match wins. -/
abbrev TypeMapping : Type := List (InOutTypeMask × PortsConfigurationImpl)

/-- Port policy `out` of `precision_translation.hpp`: keep the declared
output type. -/
def outPolicy : List ElementType → ElementType → Nat → ElementType :=
  fun _ output _ => output

/-- Port policy `in<bypassId>`: copy the concrete type of a named input.  The
source asserts `bypassId < inputs.size()`; out of range is out of contract and
yields `undefined` here. -/
def inPolicy (bypassId : Nat) : List ElementType → ElementType → Nat → ElementType :=
  fun inputs _ _ => inputs.getD bypassId .undefined

/-- Port policy `bypass`: pass the concrete type of this very port through. -/
def bypassPolicy : List ElementType → ElementType → Nat → ElementType :=
  fun inputs _ idx => inputs.getD idx .undefined

/-- Port policy `just<type>`: force a fixed literal type. -/
def justPolicy (t : ElementType) : List ElementType → ElementType → Nat → ElementType :=
  fun _ _ _ => t

/-- `PortsTranslation<Src, Wei, Bias, Dst>::operator()`: apply the four port
policies at their fixed port indices. -/
def portsTranslation (s w b d : List ElementType → ElementType → Nat → ElementType) :
    PortsConfigurationImpl :=
  fun inputs output =>
    ([s inputs output 0, w inputs output 1, b inputs output 2], d inputs output 0)

/-- `everyone<Policy>`: the same policy on all four ports. -/
def everyonePolicy (p : List ElementType → ElementType → Nat → ElementType) :
    PortsConfigurationImpl :=
  portsTranslation p p p p

/-- Concrete input types of the source descriptors
(the `inputs` vector built by `getTypeConfiguration`). -/
def inputTypes (descriptors : MemoryDescArgs) : List ElementType :=
  descriptors.src.map (fun d => d.precision)

/-- Concrete type of the destination descriptor (`descriptors.dst[0]`; the
operation arity guarantees exactly one destination descriptor). -/
def outputType (descriptors : MemoryDescArgs) : ElementType :=
  (descriptors.dst.headD defaultDesc).precision

/-- A rule of the table matches the concrete types of the descriptors: each
input type lies in its mask and the output type lies in the output mask. -/
def ruleMatches (entry : InOutTypeMask × PortsConfigurationImpl)
    (descriptors : MemoryDescArgs) : Bool :=
  matchMasks entry.fst.fst (inputTypes descriptors) && matchMask entry.fst.snd (outputType descriptors)

/-- Loop of `getTypeConfiguration`: first matching rule is applied; when no
rule matches, every port falls back to `f32`. -/
def typeConfigurationLoop : TypeMapping → List ElementType → ElementType → InOutTypes
  | [], inputs, _ => (List.replicate inputs.length .f32, .f32)
  | entry :: rest, inputs, output =>
    if matchMasks entry.fst.fst inputs && matchMask entry.fst.snd output then
      entry.snd inputs output
    else
      typeConfigurationLoop rest inputs output

/-- `getTypeConfiguration` of `precision_translation.cpp`. -/
def getTypeConfiguration (mapping : TypeMapping) (descriptors : MemoryDescArgs) : InOutTypes :=
  typeConfigurationLoop mapping (inputTypes descriptors) (outputType descriptors)

/-- `LayoutConfig` of `fullyconnected_implementations.cpp`: the desired
per-source layouts and destination layout. -/
structure LayoutConfig where
  src : List LayoutType
  dst : LayoutType

/-- Per-port body of the loop in `fullyMatchConfiguration`: the descriptor's
concrete type equals the desired one or is `undefined`
(`one_of(desc->getPrecision(), typeCfg, ov::element::undefined)`), and the
descriptor carries the desired layout. -/
def descMatchesTypeLayout (d : MemoryDesc) (t : ElementType) (l : LayoutType) : Bool :=
  (d.precision == t || d.precision == .undefined) && d.hasLayoutType l

/-- Source-descriptor loop of `fullyMatchConfiguration`; iteration is driven
by the current descriptors (the source asserts the type/layout configurations
are at least as long; a shorter configuration is out of contract and modelled
as a mismatch). -/
def matchSrcDescs : List MemoryDesc → List ElementType → List LayoutType → Bool
  | [], _, _ => true
  | d :: ds, t :: ts, l :: ls => descMatchesTypeLayout d t l && matchSrcDescs ds ts ls
  | _ :: _, [], _ => false
  | _ :: _, _ :: _, [] => false

/-- `fullyMatchConfiguration` of `fullyconnected_implementations.cpp`: every
current source descriptor and the destination descriptor already carry the
desired type (or `undefined`) and the desired layout. -/
def fullyMatchConfiguration (currentDescriptors : MemoryDescArgs)
    (typeConfig : InOutTypes) (layoutConfig : LayoutConfig) : Bool :=
  matchSrcDescs currentDescriptors.src typeConfig.fst layoutConfig.src &&
    descMatchesTypeLayout (currentDescriptors.dst.headD defaultDesc) typeConfig.snd layoutConfig.dst

/-- Per-port body of `createOptimalDescriptors`: keep the descriptor when its
precision is `undefined` or already the desired one, otherwise build a new
descriptor with the desired type, the desired layout (via the blocked-desc
creator of that layout) and the unchanged shape. -/
def optimalDesc (d : MemoryDesc) (t : ElementType) (l : LayoutType) : MemoryDesc :=
  if d.precision == .undefined || d.precision == t then d
  else { precision := t, layout := l, dims := d.dims }

/-- Source-descriptor loop of `createOptimalDescriptors`; as in the source the
iteration is driven by the current descriptors (a shorter type/layout
configuration is out of contract; the remaining descriptors are kept). -/
def coerceSrcDescs : List MemoryDesc → List ElementType → List LayoutType → List MemoryDesc
  | [], _, _ => []
  | d :: ds, t :: ts, l :: ls => optimalDesc d t l :: coerceSrcDescs ds ts ls
  | d :: ds, [], _ => d :: ds
  | d :: ds, _ :: _, [] => d :: ds

/-- `createOptimalDescriptors` of `fullyconnected_implementations.cpp`:
coerce every precision-mismatched port to the desired type and layout, keep
matching and `undefined` ports untouched; exactly one destination descriptor
is produced (from `currentDescriptors.dst[0]`). -/
def createOptimalDescriptors (currentDescriptors : MemoryDescArgs)
    (typeConfig : InOutTypes) (layoutConfig : LayoutConfig) : MemoryDescArgs :=
  { src := coerceSrcDescs currentDescriptors.src typeConfig.fst layoutConfig.src,
    dst := [optimalDesc (currentDescriptors.dst.headD defaultDesc) typeConfig.snd layoutConfig.dst] }

/-- `executor::Config<Attrs>`: descriptors, operation attributes and fused
post-ops.  The post-op type is a parameter (post-op objects are external to
this subsystem; only the list itself is observed here). -/
structure Config (Attrs : Type) (PostOp : Type) where
  descs : MemoryDescArgs
  attrs : Attrs
  postOps : List PostOp

/-- `isFullyCompliantCommon` of `fullyconnected_implementations.cpp`: look up
the ideal type configuration, report `(true, key)` when the current
descriptors fully match it, otherwise `(false, key')` where `key'` carries the
coerced descriptors and the unchanged attrs and post-ops. -/
def isFullyCompliantCommon {Attrs PostOp : Type} (key : Config Attrs PostOp)
    (typeMapping : TypeMapping) (layoutConfig : LayoutConfig) :
    Bool × Config Attrs PostOp :=
  if fullyMatchConfiguration key.descs (getTypeConfiguration typeMapping key.descs) layoutConfig then
    (true, key)
  else
    (false,
      { descs := createOptimalDescriptors key.descs
          (getTypeConfiguration typeMapping key.descs) layoutConfig,
        attrs := key.attrs,
        postOps := key.postOps })

/-- Modelled from the spec: the memory object behind `MemoryCPtr`
(`cpu_memory.h`, outside the excerpt); the embedded code observes only
`getShape().getStaticDims()`. -/
structure Memory where
  staticDims : List Nat
  deriving DecidableEq, Repr

/-- `FCAttrs` of `fullyconnected_config.hpp`.  A `MemoryCPtr` that may be null
is an `Option Memory`; the dequantization scale values are never inspected by
the embedded operations (only the vector length is), hence `Float` elements. -/
structure FCAttrs where
  withBias : Bool := false
  weightsNonTransposed : Bool := false
  sparseWeights : Bool := false
  dequantizationScales : List Float := []
  decompressionSubtractPtr : Option Memory := none
  decompressionMultiplyPtr : Option Memory := none

/-- Dereference of a decompression pointer
(`ptr->getShape().getStaticDims()`).  Dereferencing a null pointer is
undefined behaviour in the source; it is modelled by `[]` and is never reached
on the defined short-circuit paths of `FCAttrs.beq`. -/
def derefStaticDims : Option Memory → List Nat
  | some m => m.staticDims
  | none => []

/-- `FCAttrs::operator==` of `fullyconnected_config.hpp`, conjunct by
conjunct, including its guard structure: the multiply conjunct requires both
multiply pointers non-null, and the subtract conjunct guards on
`lhs.decompressionSubtractPtr` and `rhs.decompressionMultiplyPtr` while
comparing `lhs.decompressionMultiplyPtr`'s dims against
`rhs.decompressionSubtractPtr`'s dims. -/
def FCAttrs.beq (l r : FCAttrs) : Bool :=
  let result := true
  let result := result && (l.withBias == r.withBias)
  let result := result && (l.weightsNonTransposed == r.weightsNonTransposed)
  let result := result && (l.sparseWeights == r.sparseWeights)
  let result := result &&
    (l.decompressionMultiplyPtr.isSome && r.decompressionMultiplyPtr.isSome &&
      (derefStaticDims l.decompressionMultiplyPtr == derefStaticDims r.decompressionMultiplyPtr))
  let result := result &&
    (l.decompressionSubtractPtr.isSome && r.decompressionMultiplyPtr.isSome &&
      (derefStaticDims l.decompressionMultiplyPtr == derefStaticDims r.decompressionSubtractPtr))
  let result := result && (l.dequantizationScales.length == r.dequantizationScales.length)
  result

/-- Structural component-wise equality of two `FCAttrs` as the spec describes
it (flags equal, scale vectors of equal content, decompression tensors both
absent or both present with equal shapes); stated from the spec's words for
comparison against `FCAttrs.beq`. -/
def FCAttrs.specEq (l r : FCAttrs) : Prop :=
  l.withBias = r.withBias ∧
  l.weightsNonTransposed = r.weightsNonTransposed ∧
  l.sparseWeights = r.sparseWeights ∧
  l.dequantizationScales = r.dequantizationScales ∧
  Option.map derefStaticDims l.decompressionMultiplyPtr =
    Option.map derefStaticDims r.decompressionMultiplyPtr ∧
  l.decompressionMultiplyPtr.isSome = r.decompressionMultiplyPtr.isSome ∧
  Option.map derefStaticDims l.decompressionSubtractPtr =
    Option.map derefStaticDims r.decompressionSubtractPtr ∧
  l.decompressionSubtractPtr.isSome = r.decompressionSubtractPtr.isSome

/-- Post-op stand-in; post-op objects are external to this subsystem, only
their list is carried through. -/
structure PostOp where
  tag : Nat
  deriving DecidableEq, Repr

/-- `FCConfig = executor::Config<FCAttrs>`. -/
abbrev FCConfig : Type := Config FCAttrs PostOp

/-- Modelled from the spec: the `TypeMaskAlias` bitmask constants (defined
outside the excerpt).  Each alias denotes the set of element types its name
lists; `_any` covers every type, `_half_float` the 16-bit float types, and
`!` is the complement.  `typesMask ts` is membership in `ts`. -/
def typesMask (ts : List ElementType) : TypeMask :=
  fun t => ts.contains t

/-- Mask `_any`. -/
def maskAny : TypeMask := fun _ => true

/-- Mask `_half_float` (`_f16 | _bf16`). -/
def maskHalfFloat : TypeMask := typesMask [.f16, .bf16]

/-- Mask `!_i8`. -/
def maskNotI8 : TypeMask := fun t => !(t == ElementType.i8)

/-- `dnnlFCLayoutConfig` of `fullyconnected_implementations.cpp`:
plain (`ncsp`) layout on all ports. -/
def dnnlFCLayoutConfig : LayoutConfig :=
  { src := [.ncsp, .ncsp, .ncsp], dst := .ncsp }

/-- `dnnlFCTypeMapping` of `fullyconnected_implementations.cpp`, entry by
entry in declaration order. -/
def dnnlFCTypeMapping : TypeMapping :=
  [ (([typesMask [.bf16], typesMask [.bf16], maskAny], typesMask [.bf16, .f32]),
      portsTranslation bypassPolicy bypassPolicy outPolicy outPolicy),
    (([typesMask [.f16], typesMask [.f16], maskAny], typesMask [.f16, .f32]),
      portsTranslation bypassPolicy bypassPolicy outPolicy outPolicy),
    -- integer precision outputs are not supported for float precision inputs
    (([typesMask [.f32, .bf16, .f16], maskAny, maskAny], typesMask [.i8, .u8]),
      portsTranslation bypassPolicy bypassPolicy (inPolicy 0) (inPolicy 0)),
    -- compresses float weights which do not match input data precision
    (([typesMask [.f32], maskHalfFloat, maskAny], maskAny),
      portsTranslation bypassPolicy bypassPolicy (inPolicy 0) (inPolicy 0)),
    (([typesMask [.bf16], typesMask [.f16], maskAny], maskAny),
      portsTranslation bypassPolicy bypassPolicy (inPolicy 0) (inPolicy 0)),
    (([typesMask [.f16], typesMask [.bf16], maskAny], maskAny),
      portsTranslation bypassPolicy bypassPolicy (inPolicy 0) (inPolicy 0)),
    -- quantization configuration
    (([typesMask [.u8, .i8], typesMask [.i8], maskAny], maskAny),
      portsTranslation bypassPolicy bypassPolicy bypassPolicy outPolicy),
    -- compresses int weights
    (([typesMask [.f32, .bf16], typesMask [.u8, .nf4, .u4, .i4], maskAny], maskAny),
      portsTranslation bypassPolicy bypassPolicy (inPolicy 0) (inPolicy 0)),
    -- fallback to f32 if weights are not i8
    (([typesMask [.u8, .i8], maskNotI8, maskAny], maskAny),
      everyonePolicy (justPolicy .f32)),
    (([maskAny, maskAny, maskAny], maskAny),
      everyonePolicy (justPolicy .f32)) ]

/-- `ExecutorType` tags (from `executor.hpp`, outside the excerpt; only the
tags used by the embedded registry are listed). -/
inductive ExecutorType where
  | Graph
  | Mlas
  | Dnnl
  deriving DecidableEq, Repr

/-- `OperationType` tags. -/
inductive OperationType where
  | FullyConnected
  | MatMul
  | Convolution
  deriving DecidableEq, Repr

/-- `ShapeTolerance`: whether an implementation's applicability depends on
concrete shapes. -/
inductive ShapeTolerance where
  | Agnostic
  | Dependant
  deriving DecidableEq, Repr

/-- `ExecutorImplementation<Attrs>` of `executor_implementation.hpp`: a
backend candidate as observed by filtering and selection.  `create` returns
an external executor object and is not part of any selection decision, so it
is not modelled. -/
structure ExecutorImplementation (C : Type) where
  name : String
  type : ExecutorType
  operationType : OperationType
  shapeTolerance : ShapeTolerance
  isSupported : C → Bool
  isFullyCompliant : C → Bool × C
  isShapeSuitable : C → Bool

/-- `ExecutorImplementation::isShapeAgnostic`. -/
def ExecutorImplementation.isShapeAgnostic {C : Type} (impl : ExecutorImplementation C) : Bool :=
  impl.shapeTolerance == ShapeTolerance.Agnostic

namespace ExecutorFactoryNew

/-- Loop body of `ExecutorFactoryNew::filter`: walk the registered
implementations in priority order, skip one whose name fails a non-empty
priority filter, skip one that is unsupported, otherwise collect it, and stop
right after collecting a shape-agnostic one. -/
def filterLoop {C : Type} (implementations : List (ExecutorImplementation C))
    (key : C) (implementationPriority : String) : List (ExecutorImplementation C) :=
  match implementations with
  | [] => []
  | impl :: rest =>
    if !(implementationPriority == "") && !(impl.name == implementationPriority) then
      filterLoop rest key implementationPriority
    else if !(impl.isSupported key) then
      filterLoop rest key implementationPriority
    else if impl.isShapeAgnostic then
      [impl]
    else
      impl :: filterLoop rest key implementationPriority

/-- `ExecutorFactoryNew::filter`: the collected suitable implementations, or
the fatal `OPENVINO_ASSERT` message when the collected list is empty. -/
def filter {C : Type} (implementations : List (ExecutorImplementation C))
    (key : C) (implementationPriority : String) :
    Except String (List (ExecutorImplementation C)) :=
  let suitableImplementations := filterLoop implementations key implementationPriority
  if suitableImplementations.isEmpty then
    Except.error ("No implementations supports the provided key")
  else
    Except.ok suitableImplementations

/-- `ExecutorFactoryNew::select`: the first previously filtered
implementation that is shape-agnostic or shape-suitable for the key, or the
fatal `OPENVINO_ASSERT` message when none is. -/
def select {C : Type} (suitableImplementations : List (ExecutorImplementation C))
    (key : C) : Except String (ExecutorImplementation C) :=
  match suitableImplementations.find?
      (fun impl => impl.isShapeAgnostic || impl.isShapeSuitable key) with
  | some impl => Except.ok impl
  | none => Except.error ("Failed to selected an implemetation")

end ExecutorFactoryNew

/-- The `fullyconnected_dnnl` entry of `fullyconnectedImplementations`:
always supported, shape-dependent with an always-true shape heuristic, and
compliance via `isFullyCompliantCommon` over `dnnlFCTypeMapping` and
`dnnlFCLayoutConfig`. -/
def fullyconnectedDnnl : ExecutorImplementation FCConfig :=
  { name := "fullyconnected_dnnl",
    type := .Dnnl,
    operationType := .FullyConnected,
    shapeTolerance := .Dependant,
    isSupported := fun _ => true,
    isFullyCompliant := fun key => isFullyCompliantCommon key dnnlFCTypeMapping dnnlFCLayoutConfig,
    isShapeSuitable := fun _ => true }

/-- The source-descriptor half of the layout requirement: every current
source descriptor already carries the layout the configuration desires
(driven by the descriptor list, as the matching loop is). -/
def srcLayoutsMatch : List MemoryDesc → List LayoutType → Bool
  | [], _ => true
  | d :: ds, l :: ls => d.hasLayoutType l && srcLayoutsMatch ds ls
  | _ :: _, [] => false

/-- All current descriptors (sources and the destination) already carry the
layouts the configuration desires. -/
def descsLayoutsMatch (descriptors : MemoryDescArgs) (layoutConfig : LayoutConfig) : Bool :=
  srcLayoutsMatch descriptors.src layoutConfig.src &&
    (descriptors.dst.headD defaultDesc).hasLayoutType layoutConfig.dst

/-- Attrs whose decompression multiply tensor (shape `[2]`) and subtract
tensor (shape `[3]`) are both present but differ in shape; component-wise
equal to itself, yet rejected by `FCAttrs.beq` because the multiply dims are
compared against the subtract dims. -/
def mixedDimsAttrs : FCAttrs :=
  { decompressionSubtractPtr := some { staticDims := [3] },
    decompressionMultiplyPtr := some { staticDims := [2] } }

/-- Stub implementation at highest priority: shape-dependent and never
supported. -/
def stubDependantUnsupported : ExecutorImplementation FCConfig :=
  { name := "p0", type := .Graph, operationType := .FullyConnected,
    shapeTolerance := .Dependant,
    isSupported := fun _ => false,
    isFullyCompliant := fun key => (true, key),
    isShapeSuitable := fun _ => true }

/-- Stub implementation at middle priority: shape-agnostic and always
supported. -/
def stubAgnosticSupported : ExecutorImplementation FCConfig :=
  { name := "p1", type := .Mlas, operationType := .MatMul,
    shapeTolerance := .Agnostic,
    isSupported := fun _ => true,
    isFullyCompliant := fun key => (true, key),
    isShapeSuitable := fun _ => true }

/-- Stub implementation at lowest priority: shape-dependent and always
supported (and always shape-suitable, so only the early termination of
filtering can keep it from being selected). -/
def stubDependantSupported : ExecutorImplementation FCConfig :=
  { name := "p2", type := .Dnnl, operationType := .FullyConnected,
    shapeTolerance := .Dependant,
    isSupported := fun _ => true,
    isFullyCompliant := fun key => (true, key),
    isShapeSuitable := fun _ => true }

/-- A plain fully-connected config: `f32` activations, `i8` weights, `f32`
bias, `f32` destination, everything in plain layout. -/
def sampleFCConfig : FCConfig :=
  { descs := { src := [ { precision := .f32, layout := .ncsp, dims := [2, 4] },
                        { precision := .i8, layout := .ncsp, dims := [4, 4] },
                        { precision := .f32, layout := .ncsp, dims := [4] } ],
               dst := [ { precision := .f32, layout := .ncsp, dims := [2, 4] } ] },
    attrs := {},
    postOps := [] }

/-- The coercion of `sampleFCConfig` produced by the `fullyconnected_dnnl`
compliance check (its weights port coerced to `f32`). -/
def sampleFCConfigCoerced : FCConfig :=
  (isFullyCompliantCommon sampleFCConfig dnnlFCTypeMapping dnnlFCLayoutConfig).snd

/-- A fully-connected config with `f32` activations, `i8` weights and an `i8`
destination: the quantized-output rule of `dnnlFCTypeMapping` targets it at
`(f32, i8, f32) → f32`, and the resulting coercion re-enters the table at a
different rule (the catch-all), so its round trip through the compliance
check never stabilises on the first re-submission. -/
def dnnlRoundTripKey : FCConfig :=
  { descs := { src := [ { precision := .f32, layout := .ncsp, dims := [2, 4] },
                        { precision := .i8, layout := .ncsp, dims := [4, 4] },
                        { precision := .f32, layout := .ncsp, dims := [4] } ],
               dst := [ { precision := .i8, layout := .ncsp, dims := [2, 4] } ] },
    attrs := {},
    postOps := [] }

/-- A single-source descriptor set (`f32` in, `f32` out) used to exercise the
rule tables on concrete inputs. -/
def singleSrcDescs : MemoryDescArgs :=
  { src := [ { precision := .f32, layout := .ncsp, dims := [8] } ],
    dst := [ { precision := .f32, layout := .ncsp, dims := [8] } ] }

/-- First of two overlapping rules: matches everything, forces every port to
`f16`. -/
def overlapRuleA : InOutTypeMask × PortsConfigurationImpl :=
  (([maskAny], maskAny), everyonePolicy (justPolicy .f16))

/-- Second of two overlapping rules: also matches everything, forces every
port to `f32`. -/
def overlapRuleB : InOutTypeMask × PortsConfigurationImpl :=
  (([maskAny], maskAny), everyonePolicy (justPolicy .f32))

/-- A rule that matches only `bf16` inputs and outputs; it never matches
`singleSrcDescs`. -/
def bf16OnlyRule : InOutTypeMask × PortsConfigurationImpl :=
  (([typesMask [.bf16]], typesMask [.bf16]), everyonePolicy (justPolicy .bf16))

/-- Claim C1 (the code is the odd one out): `FCAttrs::operator==` does not
implement content equality.  Two default-constructed attrs are component-wise
equal (both decompression tensors absent) and an attrs value with both
decompression tensors present is component-wise equal to itself, yet
`operator==` rejects both pairs: its multiply conjunct demands non-null
multiply pointers, and its subtract conjunct compares the left multiply dims
against the right subtract dims. -/
theorem fcattrs_equality_not_by_content :
    FCAttrs.specEq {} {} ∧ FCAttrs.beq {} {} = false ∧
    FCAttrs.specEq mixedDimsAttrs mixedDimsAttrs ∧
    FCAttrs.beq mixedDimsAttrs mixedDimsAttrs = false := by
  refine ⟨?_, rfl, ?_, rfl⟩ <;>
    exact ⟨rfl, rfl, rfl, rfl, rfl, rfl, rfl, rfl⟩

theorem typeConfigurationLoop_first_match (front back : TypeMapping)
    (entry : InOutTypeMask × PortsConfigurationImpl)
    (inputs : List ElementType) (output : ElementType)
    (hfront : ∀ e ∈ front, (matchMasks e.fst.fst inputs && matchMask e.fst.snd output) = false)
    (hentry : (matchMasks entry.fst.fst inputs && matchMask entry.fst.snd output) = true) :
    typeConfigurationLoop (front ++ entry :: back) inputs output = entry.snd inputs output := by
  induction front with
  | nil =>
    simp only [List.nil_append, typeConfigurationLoop]
    rw [hentry]
    simp
  | cons e front ih =>
    simp only [List.cons_append, typeConfigurationLoop]
    rw [hfront e (List.mem_cons_self e front)]
    simp only [Bool.false_eq_true, if_false]
    exact ih (fun x hx => hfront x (List.mem_cons_of_mem e hx))

/-- Claim C4: precision-table lookup is first-match-wins in declared order:
whenever no rule before `entry` matches the concrete source and destination
types and `entry` does, `getTypeConfiguration` applies `entry`'s translation,
and the rules after `entry` are never considered (the result does not depend
on `back`). -/
theorem getTypeConfiguration_first_match_wins (front back : TypeMapping)
    (entry : InOutTypeMask × PortsConfigurationImpl) (descriptors : MemoryDescArgs)
    (hfront : ∀ e ∈ front, ruleMatches e descriptors = false)
    (hentry : ruleMatches entry descriptors = true) :
    getTypeConfiguration (front ++ entry :: back) descriptors =
      entry.snd (inputTypes descriptors) (outputType descriptors) :=
  typeConfigurationLoop_first_match front back entry (inputTypes descriptors)
    (outputType descriptors) hfront hentry

/-- Witness for claim C4: of the two overlapping catch-all rules, the
first-declared one (forcing `f16`) wins on a concrete `f32` descriptor set. -/
theorem getTypeConfiguration_first_match_wins_witness :
    getTypeConfiguration [overlapRuleA, overlapRuleB] singleSrcDescs =
      overlapRuleA.snd (inputTypes singleSrcDescs) (outputType singleSrcDescs) :=
  getTypeConfiguration_first_match_wins [] [overlapRuleB] overlapRuleA singleSrcDescs
    (fun e he => absurd he (List.not_mem_nil e)) rfl

/-- Claim C7: a type-table miss is recovered locally: when no rule of the
table matches the concrete descriptor types, `getTypeConfiguration` returns
the configuration forcing every input port and the output port to `f32`
(being a total function, it signals no error). -/
theorem getTypeConfiguration_miss_defaults_to_f32 (mapping : TypeMapping)
    (descriptors : MemoryDescArgs)
    (h : ∀ e ∈ mapping, ruleMatches e descriptors = false) :
    getTypeConfiguration mapping descriptors =
      (List.replicate descriptors.src.length ElementType.f32, ElementType.f32) := by
  unfold getTypeConfiguration
  revert h
  induction mapping with
  | nil =>
    intro _
    simp [typeConfigurationLoop, inputTypes]
  | cons e rest ih =>
    intro h
    simp only [typeConfigurationLoop]
    have he := h e (List.mem_cons_self e rest)
    unfold ruleMatches at he
    rw [he]
    simp only [Bool.false_eq_true, if_false]
    exact ih (fun x hx => h x (List.mem_cons_of_mem e hx))

/-- Witness for claim C7: a table consisting only of a `bf16`-only rule
misses the all-`f32` descriptor set and yields the `f32` default. -/
theorem getTypeConfiguration_miss_defaults_to_f32_witness :
    getTypeConfiguration [bf16OnlyRule] singleSrcDescs =
      (List.replicate singleSrcDescs.src.length ElementType.f32, ElementType.f32) :=
  getTypeConfiguration_miss_defaults_to_f32 [bf16OnlyRule] singleSrcDescs
    (fun e he => by
      rw [List.mem_singleton] at he
      subst he
      rfl)

theorem mem_filterLoop_isSupported {C : Type} (implementations : List (ExecutorImplementation C))
    (key : C) (pri : String) (impl : ExecutorImplementation C)
    (h : impl ∈ ExecutorFactoryNew.filterLoop implementations key pri) :
    impl.isSupported key = true := by
  induction implementations with
  | nil => simp [ExecutorFactoryNew.filterLoop] at h
  | cons e rest ih =>
    unfold ExecutorFactoryNew.filterLoop at h
    by_cases hname : (!(pri == "") && !(e.name == pri)) = true
    · rw [if_pos hname] at h
      exact ih h
    · rw [if_neg hname] at h
      by_cases hsup : (!(e.isSupported key)) = true
      · rw [if_pos hsup] at h
        exact ih h
      · rw [if_neg hsup] at h
        have hsup' : e.isSupported key = true := by
          simpa using hsup
        by_cases hagn : e.isShapeAgnostic = true
        · rw [if_pos hagn] at h
          rw [List.mem_singleton] at h
          subst h
          exact hsup'
        · rw [if_neg hagn] at h
          rcases List.mem_cons.mp h with rfl | hrest
          · exact hsup'
          · exact ih hrest

/-- Claim C5: `filter` never hands an empty candidate list to the caller: it
either signals the fatal configuration-unsatisfiable assertion, or the
resulting suitable-implementations list is non-empty and every element's
`isSupported` holds for the key. -/
theorem filter_nonempty_all_supported {C : Type}
    (implementations : List (ExecutorImplementation C)) (key : C) (pri : String) :
    match ExecutorFactoryNew.filter implementations key pri with
    | Except.ok suitable =>
        suitable ≠ [] ∧ ∀ impl ∈ suitable, impl.isSupported key = true
    | Except.error e => e = "No implementations supports the provided key" := by
  by_cases hempty : (ExecutorFactoryNew.filterLoop implementations key pri).isEmpty = true
  · have hfil : ExecutorFactoryNew.filter implementations key pri =
        Except.error "No implementations supports the provided key" := by
      unfold ExecutorFactoryNew.filter
      rw [if_pos hempty]
    rw [hfil]
  · have hfil : ExecutorFactoryNew.filter implementations key pri =
        Except.ok (ExecutorFactoryNew.filterLoop implementations key pri) := by
      unfold ExecutorFactoryNew.filter
      rw [if_neg hempty]
    rw [hfil]
    refine ⟨fun hnil => hempty ?_, fun impl h => mem_filterLoop_isSupported implementations key pri impl h⟩
    rw [hnil]
    rfl

theorem find?_first_decomposition {α : Type} (p : α → Bool) (l : List α) :
    match l.find? p with
    | some b =>
        p b = true ∧ ∃ front back, l = front ++ b :: back ∧ ∀ a ∈ front, p a = false
    | none => ∀ a ∈ l, p a = false := by
  induction l with
  | nil => simp
  | cons x xs ih =>
    cases hx : p x with
    | true =>
      simp only [List.find?, hx]
      exact ⟨trivial, [], xs, rfl, by simp⟩
    | false =>
      simp only [List.find?, hx]
      cases hfind : xs.find? p with
      | some b =>
        rw [hfind] at ih
        obtain ⟨hb, front, back, hsplit, hfront⟩ := ih
        refine ⟨hb, x :: front, back, by rw [hsplit, List.cons_append], ?_⟩
        intro a ha
        rcases List.mem_cons.mp ha with rfl | ha
        · exact hx
        · exact hfront a ha
      | none =>
        rw [hfind] at ih
        intro a ha
        rcases List.mem_cons.mp ha with rfl | ha
        · exact hx
        · exact ih a ha

/-- Claim C9: `select` returns the first implementation of the previously
filtered list that is shape-agnostic or shape-suitable for the key (every
implementation before it satisfies neither), and signals the fatal
selection-inconsistent assertion exactly when no element satisfies either
condition. -/
theorem select_first_agnostic_or_suitable {C : Type}
    (suitableImplementations : List (ExecutorImplementation C)) (key : C) :
    match ExecutorFactoryNew.select suitableImplementations key with
    | Except.ok impl =>
        (impl.isShapeAgnostic || impl.isShapeSuitable key) = true ∧
        ∃ front back, suitableImplementations = front ++ impl :: back ∧
          ∀ j ∈ front, (j.isShapeAgnostic || j.isShapeSuitable key) = false
    | Except.error e =>
        e = "Failed to selected an implemetation" ∧
        ∀ impl ∈ suitableImplementations,
          (impl.isShapeAgnostic || impl.isShapeSuitable key) = false := by
  unfold ExecutorFactoryNew.select
  have hmain := find?_first_decomposition
    (fun impl => impl.isShapeAgnostic || impl.isShapeSuitable key) suitableImplementations
  cases hfind : suitableImplementations.find?
      (fun impl => impl.isShapeAgnostic || impl.isShapeSuitable key) with
  | some impl =>
    rw [hfind] at hmain
    exact hmain
  | none =>
    rw [hfind] at hmain
    exact ⟨rfl, hmain⟩

theorem filterLoop_stops_at_agnostic {C : Type}
    (front back : List (ExecutorImplementation C)) (a : ExecutorImplementation C) (key : C)
    (hsup : a.isSupported key = true) (hagn : a.isShapeAgnostic = true) :
    ExecutorFactoryNew.filterLoop (front ++ a :: back) key "" =
      ExecutorFactoryNew.filterLoop (front ++ [a]) key "" := by
  induction front with
  | nil =>
    simp only [List.nil_append]
    unfold ExecutorFactoryNew.filterLoop
    simp [hsup, hagn]
  | cons e front ih =>
    simp only [List.cons_append]
    unfold ExecutorFactoryNew.filterLoop
    rw [ih]

/-- Claim C2: once `filter` accepts a supported shape-agnostic
implementation, filtering stops there: implementations registered after it
are never examined (`filterLoop` ignores everything past the accepted
agnostic entry), so no lower-priority implementation can be returned by
`select`.  In particular, with the three stubs p0 (Dependant, unsupported),
p1 (Agnostic, supported) and p2 (Dependant, supported), `filter` keeps
exactly p1 and `select` always returns p1, regardless of the key's shapes. -/
theorem agnostic_early_termination :
    (∀ (C : Type) (front back : List (ExecutorImplementation C))
       (a : ExecutorImplementation C) (key : C),
       a.isSupported key = true → a.isShapeAgnostic = true →
       ExecutorFactoryNew.filterLoop (front ++ a :: back) key "" =
         ExecutorFactoryNew.filterLoop (front ++ [a]) key "") ∧
    (∀ key : FCConfig,
       ExecutorFactoryNew.filter
           [stubDependantUnsupported, stubAgnosticSupported, stubDependantSupported] key "" =
         Except.ok [stubAgnosticSupported] ∧
       ExecutorFactoryNew.select [stubAgnosticSupported] key = Except.ok stubAgnosticSupported) :=
  ⟨fun _ front back a key hsup hagn => filterLoop_stops_at_agnostic front back a key hsup hagn,
   fun _ => ⟨rfl, rfl⟩⟩

/-- Witness for claim C2: the early-termination equation and the three-stub
selection at a concrete key. -/
theorem agnostic_early_termination_witness :
    ExecutorFactoryNew.filterLoop
        ([stubDependantUnsupported] ++ stubAgnosticSupported :: [stubDependantSupported])
        sampleFCConfig "" =
      ExecutorFactoryNew.filterLoop ([stubDependantUnsupported] ++ [stubAgnosticSupported])
        sampleFCConfig "" ∧
    ExecutorFactoryNew.filter
        [stubDependantUnsupported, stubAgnosticSupported, stubDependantSupported]
        sampleFCConfig "" =
      Except.ok [stubAgnosticSupported] ∧
    ExecutorFactoryNew.select [stubAgnosticSupported] sampleFCConfig =
      Except.ok stubAgnosticSupported :=
  ⟨agnostic_early_termination.1 FCConfig [stubDependantUnsupported] [stubDependantSupported]
      stubAgnosticSupported sampleFCConfig rfl rfl,
   agnostic_early_termination.2 sampleFCConfig⟩

/-- Witness for claim C5: filtering the three stubs yields a non-empty list
of supported implementations. -/
theorem filter_nonempty_all_supported_witness :
    [stubAgnosticSupported] ≠ ([] : List (ExecutorImplementation FCConfig)) ∧
    ∀ impl ∈ [stubAgnosticSupported], impl.isSupported sampleFCConfig = true :=
  filter_nonempty_all_supported
    [stubDependantUnsupported, stubAgnosticSupported, stubDependantSupported] sampleFCConfig ""

/-- Witness for claim C9: selecting from the singleton agnostic stub list
returns that stub, with nothing before it. -/
theorem select_first_agnostic_or_suitable_witness :
    (stubAgnosticSupported.isShapeAgnostic ||
      stubAgnosticSupported.isShapeSuitable sampleFCConfig) = true ∧
    ∃ front back,
      [stubAgnosticSupported] = front ++ stubAgnosticSupported :: back ∧
      ∀ j ∈ front, (j.isShapeAgnostic || j.isShapeSuitable sampleFCConfig) = false :=
  select_first_agnostic_or_suitable [stubAgnosticSupported] sampleFCConfig

theorem optimalDesc_dims (d : MemoryDesc) (t : ElementType) (l : LayoutType) :
    (optimalDesc d t l).dims = d.dims := by
  unfold optimalDesc
  split <;> rfl

theorem optimalDesc_cases (d : MemoryDesc) (t : ElementType) (l : LayoutType) :
    optimalDesc d t l = d ∨
      optimalDesc d t l = { precision := t, layout := l, dims := d.dims } := by
  unfold optimalDesc
  split
  · exact Or.inl rfl
  · exact Or.inr rfl

theorem optimalDesc_of_undefined (d : MemoryDesc) (t : ElementType) (l : LayoutType)
    (h : d.precision = ElementType.undefined) : optimalDesc d t l = d := by
  simp [optimalDesc, h]

theorem descMatchesTypeLayout_optimalDesc (d : MemoryDesc) (t : ElementType) (l : LayoutType)
    (hlay : d.hasLayoutType l = true) :
    descMatchesTypeLayout (optimalDesc d t l) t l = true := by
  unfold optimalDesc
  split
  · next hcond =>
    have hcond' : d.precision = ElementType.undefined ∨ d.precision = t := by
      simpa using hcond
    rcases hcond' with h | h <;> simp [descMatchesTypeLayout, h, hlay]
  · simp [descMatchesTypeLayout, MemoryDesc.hasLayoutType]

theorem coerceSrcDescs_length (ds : List MemoryDesc) (ts : List ElementType)
    (ls : List LayoutType) : (coerceSrcDescs ds ts ls).length = ds.length := by
  induction ds generalizing ts ls with
  | nil => rfl
  | cons d ds ih =>
    cases ts with
    | nil => rfl
    | cons t ts =>
      cases ls with
      | nil => rfl
      | cons l ls => simp [coerceSrcDescs, ih]

theorem coerceSrcDescs_getD_dims (ds : List MemoryDesc) (ts : List ElementType)
    (ls : List LayoutType) (i : Nat) :
    ((coerceSrcDescs ds ts ls).getD i defaultDesc).dims = (ds.getD i defaultDesc).dims := by
  induction ds generalizing ts ls i with
  | nil => rfl
  | cons d ds ih =>
    cases ts with
    | nil => rfl
    | cons t ts =>
      cases ls with
      | nil => rfl
      | cons l ls =>
        cases i with
        | zero => simp [coerceSrcDescs, optimalDesc_dims]
        | succ n =>
          simp only [coerceSrcDescs, List.getD_cons_succ]
          exact ih ts ls n

theorem coerceSrcDescs_getD (ds : List MemoryDesc) (ts : List ElementType)
    (ls : List LayoutType) (h1 : ds.length ≤ ts.length) (h2 : ds.length ≤ ls.length)
    (i : Nat) (hi : i < ds.length) :
    (coerceSrcDescs ds ts ls).getD i defaultDesc =
      optimalDesc (ds.getD i defaultDesc) (ts.getD i ElementType.undefined)
        (ls.getD i LayoutType.ncsp) := by
  induction ds generalizing ts ls i with
  | nil => exact absurd hi (by simp)
  | cons d ds ih =>
    cases ts with
    | nil => exact absurd h1 (by simp)
    | cons t ts =>
      cases ls with
      | nil => exact absurd h2 (by simp)
      | cons l ls =>
        cases i with
        | zero => simp [coerceSrcDescs]
        | succ n =>
          simp only [coerceSrcDescs, List.getD_cons_succ]
          exact ih ts ls (by simpa using h1) (by simpa using h2) n (by simpa using hi)

theorem coerceSrcDescs_getD_of_undefined (ds : List MemoryDesc) (ts : List ElementType)
    (ls : List LayoutType) (i : Nat)
    (h : (ds.getD i defaultDesc).precision = ElementType.undefined) :
    (coerceSrcDescs ds ts ls).getD i defaultDesc = ds.getD i defaultDesc := by
  induction ds generalizing ts ls i with
  | nil => rfl
  | cons d ds ih =>
    cases ts with
    | nil => rfl
    | cons t ts =>
      cases ls with
      | nil => rfl
      | cons l ls =>
        cases i with
        | zero =>
          simp only [List.getD_cons_zero] at h
          simp [coerceSrcDescs, optimalDesc_of_undefined d t l h]
        | succ n =>
          simp only [List.getD_cons_succ] at h
          simp only [coerceSrcDescs, List.getD_cons_succ]
          exact ih ts ls n h

theorem matchSrcDescs_coerceSrcDescs (ds : List MemoryDesc) (ts : List ElementType)
    (ls : List LayoutType) (hlen : ds.length ≤ ts.length)
    (hlay : srcLayoutsMatch ds ls = true) :
    matchSrcDescs (coerceSrcDescs ds ts ls) ts ls = true := by
  induction ds generalizing ts ls with
  | nil =>
    cases ts with
    | nil => cases ls <;> rfl
    | cons t ts => cases ls <;> rfl
  | cons d ds ih =>
    cases ts with
    | nil => exact absurd hlen (by simp)
    | cons t ts =>
      cases ls with
      | nil => exact absurd hlay (by simp [srcLayoutsMatch])
      | cons l ls =>
        simp only [srcLayoutsMatch, Bool.and_eq_true] at hlay
        simp only [coerceSrcDescs, matchSrcDescs, Bool.and_eq_true]
        exact ⟨descMatchesTypeLayout_optimalDesc d t l hlay.1,
          ih ts ls (by simpa using hlen) hlay.2⟩

/-- Claim C6: `isFullyCompliantCommon` is a precision/layout projection.
When every current descriptor's type and layout already match the ideal
configuration it returns `(true, key)` unchanged; otherwise it returns
`(false, key')` where `key'` keeps the attrs, the post-ops, the port counts
and every port's shape dims (hence rank), and each of its descriptors is
either the original one or the original coerced to the ideal type and layout
with its shape unchanged. -/
theorem isFullyCompliant_projection {Attrs PostOp : Type} (typeMapping : TypeMapping)
    (layoutConfig : LayoutConfig) (key : Config Attrs PostOp)
    (typeConfig : InOutTypes) (htc : typeConfig = getTypeConfiguration typeMapping key.descs)
    (r : Bool × Config Attrs PostOp) (hr : r = isFullyCompliantCommon key typeMapping layoutConfig)
    (hsrcT : key.descs.src.length ≤ typeConfig.fst.length)
    (hsrcL : key.descs.src.length ≤ layoutConfig.src.length)
    (hdst : key.descs.dst.length = 1) :
    (fullyMatchConfiguration key.descs typeConfig layoutConfig = true → r = (true, key)) ∧
    (fullyMatchConfiguration key.descs typeConfig layoutConfig = false →
      r.fst = false ∧
      r.snd.attrs = key.attrs ∧
      r.snd.postOps = key.postOps ∧
      r.snd.descs.src.length = key.descs.src.length ∧
      r.snd.descs.dst.length = key.descs.dst.length ∧
      (∀ i : Nat,
        (r.snd.descs.src.getD i defaultDesc).dims = (key.descs.src.getD i defaultDesc).dims) ∧
      (r.snd.descs.dst.headD defaultDesc).dims = (key.descs.dst.headD defaultDesc).dims ∧
      (∀ i : Nat, i < key.descs.src.length →
        r.snd.descs.src.getD i defaultDesc = key.descs.src.getD i defaultDesc ∨
        r.snd.descs.src.getD i defaultDesc =
          { precision := typeConfig.fst.getD i ElementType.undefined,
            layout := layoutConfig.src.getD i LayoutType.ncsp,
            dims := (key.descs.src.getD i defaultDesc).dims }) ∧
      (r.snd.descs.dst.headD defaultDesc = key.descs.dst.headD defaultDesc ∨
       r.snd.descs.dst.headD defaultDesc =
         { precision := typeConfig.snd, layout := layoutConfig.dst,
           dims := (key.descs.dst.headD defaultDesc).dims })) := by
  subst htc
  subst hr
  constructor
  · intro hmatch
    unfold isFullyCompliantCommon
    rw [if_pos hmatch]
  · intro hmatch
    have hre : isFullyCompliantCommon key typeMapping layoutConfig =
        (false,
          { descs := createOptimalDescriptors key.descs
              (getTypeConfiguration typeMapping key.descs) layoutConfig,
            attrs := key.attrs,
            postOps := key.postOps }) := by
      unfold isFullyCompliantCommon
      rw [hmatch]
      simp
    rw [hre]
    refine ⟨rfl, rfl, rfl, ?_, ?_, ?_, ?_, ?_, ?_⟩
    · exact coerceSrcDescs_length key.descs.src _ layoutConfig.src
    · simp [createOptimalDescriptors, hdst]
    · intro i
      exact coerceSrcDescs_getD_dims key.descs.src _ layoutConfig.src i
    · simp [createOptimalDescriptors, optimalDesc_dims]
    · intro i hi
      rcases optimalDesc_cases (key.descs.src.getD i defaultDesc)
          ((getTypeConfiguration typeMapping key.descs).fst.getD i ElementType.undefined)
          (layoutConfig.src.getD i LayoutType.ncsp) with hc | hc
      · exact Or.inl
          ((coerceSrcDescs_getD key.descs.src _ layoutConfig.src hsrcT hsrcL i hi).trans hc)
      · exact Or.inr
          ((coerceSrcDescs_getD key.descs.src _ layoutConfig.src hsrcT hsrcL i hi).trans hc)
    · exact optimalDesc_cases (key.descs.dst.headD defaultDesc)
        (getTypeConfiguration typeMapping key.descs).snd layoutConfig.dst

/-- Witness for claim C6: on a concrete quantized-weights config the
`fullyconnected_dnnl` compliance check reports non-compliant yet keeps the
attrs. -/
theorem isFullyCompliant_projection_witness :
    (isFullyCompliantCommon sampleFCConfig dnnlFCTypeMapping dnnlFCLayoutConfig).fst = false ∧
    (isFullyCompliantCommon sampleFCConfig dnnlFCTypeMapping dnnlFCLayoutConfig).snd.attrs =
      sampleFCConfig.attrs :=
  have h := isFullyCompliant_projection dnnlFCTypeMapping dnnlFCLayoutConfig sampleFCConfig
    (getTypeConfiguration dnnlFCTypeMapping sampleFCConfig.descs) rfl
    (isFullyCompliantCommon sampleFCConfig dnnlFCTypeMapping dnnlFCLayoutConfig) rfl
    (by decide) (by decide) rfl
  ⟨(h.2 rfl).1, (h.2 rfl).2.1⟩

/-- Claim C3 (amended): re-submitting the coerced config reports compliant
provided every descriptor of the original config already carries the desired
layout (a layout mismatch is never repaired by the coercion) and the type
configuration recomputed for the coerced descriptors equals the one the
coercion used (a rule change on re-entry can re-target the coerced types);
without these provisos the round trip can report non-compliant again. -/
theorem isFullyCompliant_roundtrip_of_stable_types {Attrs PostOp : Type}
    (typeMapping : TypeMapping) (layoutConfig : LayoutConfig)
    (key coerced : Config Attrs PostOp)
    (hsrcT : key.descs.src.length ≤ (getTypeConfiguration typeMapping key.descs).fst.length)
    (hlay : descsLayoutsMatch key.descs layoutConfig = true)
    (hfc : isFullyCompliantCommon key typeMapping layoutConfig = (false, coerced))
    (hstable : getTypeConfiguration typeMapping coerced.descs =
      getTypeConfiguration typeMapping key.descs) :
    isFullyCompliantCommon coerced typeMapping layoutConfig = (true, coerced) := by
  by_cases hmatch : fullyMatchConfiguration key.descs
      (getTypeConfiguration typeMapping key.descs) layoutConfig = true
  · exfalso
    unfold isFullyCompliantCommon at hfc
    rw [if_pos hmatch] at hfc
    exact absurd (congrArg Prod.fst hfc) (by simp)
  · have hdescs : coerced.descs = createOptimalDescriptors key.descs
        (getTypeConfiguration typeMapping key.descs) layoutConfig := by
      unfold isFullyCompliantCommon at hfc
      rw [if_neg hmatch] at hfc
      have h2 : Config.mk (createOptimalDescriptors key.descs
            (getTypeConfiguration typeMapping key.descs) layoutConfig) key.attrs key.postOps =
          coerced :=
        congrArg Prod.snd hfc
      rw [← h2]
    unfold descsLayoutsMatch at hlay
    rw [Bool.and_eq_true] at hlay
    have hfull : fullyMatchConfiguration coerced.descs
        (getTypeConfiguration typeMapping coerced.descs) layoutConfig = true := by
      rw [hstable, hdescs]
      unfold fullyMatchConfiguration createOptimalDescriptors
      rw [Bool.and_eq_true]
      constructor
      · exact matchSrcDescs_coerceSrcDescs key.descs.src _ layoutConfig.src hsrcT hlay.1
      · exact descMatchesTypeLayout_optimalDesc _ _ _ hlay.2
    unfold isFullyCompliantCommon
    rw [if_pos hfull]

/-- Witness for claim C3's amended theorem: the coercion of the concrete
quantized-weights config is itself compliant on re-submission, its layouts
matching and its type configuration stable. -/
theorem isFullyCompliant_roundtrip_of_stable_types_witness :
    isFullyCompliantCommon sampleFCConfigCoerced dnnlFCTypeMapping dnnlFCLayoutConfig =
      (true, sampleFCConfigCoerced) :=
  isFullyCompliant_roundtrip_of_stable_types dnnlFCTypeMapping dnnlFCLayoutConfig
    sampleFCConfig sampleFCConfigCoerced (by decide) rfl rfl rfl

/-- Counterexample to claim C3 as stated: on the config with `f32`
activations, `i8` weights and an `i8` destination, the `fullyconnected_dnnl`
compliance check returns non-compliant with a coercion, and re-submitting
that coercion returns non-compliant again (the quantized-output rule targeted
the first call, the catch-all rule re-targets the coerced types). -/
theorem dnnl_coercion_not_compliant_on_resubmission :
    (fullyconnectedDnnl.isFullyCompliant dnnlRoundTripKey).fst = false ∧
    (fullyconnectedDnnl.isFullyCompliant
        (fullyconnectedDnnl.isFullyCompliant dnnlRoundTripKey).snd).fst = false :=
  ⟨rfl, rfl⟩

/-- Claim C10: a descriptor whose precision is `undefined` always passes the
type half of the per-port compliance check (only its layout is still
checked), and the coercion returns it unchanged, both for source ports and
for the destination port. -/
theorem undefined_precision_compliant_never_coerced :
    (∀ (d : MemoryDesc) (t : ElementType) (l : LayoutType),
       d.precision = ElementType.undefined →
       descMatchesTypeLayout d t l = d.hasLayoutType l ∧ optimalDesc d t l = d) ∧
    (∀ (descriptors : MemoryDescArgs) (typeConfig : InOutTypes) (layoutConfig : LayoutConfig)
       (i : Nat),
       (descriptors.src.getD i defaultDesc).precision = ElementType.undefined →
       (createOptimalDescriptors descriptors typeConfig layoutConfig).src.getD i defaultDesc =
         descriptors.src.getD i defaultDesc) ∧
    (∀ (descriptors : MemoryDescArgs) (typeConfig : InOutTypes) (layoutConfig : LayoutConfig),
       (descriptors.dst.headD defaultDesc).precision = ElementType.undefined →
       (createOptimalDescriptors descriptors typeConfig layoutConfig).dst.headD defaultDesc =
         descriptors.dst.headD defaultDesc) := by
  refine ⟨fun d t l h => ⟨?_, optimalDesc_of_undefined d t l h⟩, ?_, ?_⟩
  · simp [descMatchesTypeLayout, h]
  · intro descriptors typeConfig layoutConfig i h
    exact coerceSrcDescs_getD_of_undefined descriptors.src typeConfig.fst layoutConfig.src i h
  · intro descriptors typeConfig layoutConfig h
    exact optimalDesc_of_undefined (descriptors.dst.headD defaultDesc)
      typeConfig.snd layoutConfig.dst h

/-- Witness for claim C10: the default (undefined-precision) descriptor
passes the type check against `f32`/`nspc` and survives coercion unchanged. -/
theorem undefined_precision_compliant_never_coerced_witness :
    descMatchesTypeLayout defaultDesc ElementType.f32 LayoutType.nspc =
      defaultDesc.hasLayoutType LayoutType.nspc ∧
    optimalDesc defaultDesc ElementType.f32 LayoutType.nspc = defaultDesc :=
  undefined_precision_compliant_never_coerced.1 defaultDesc ElementType.f32 LayoutType.nspc rfl

end OvCpu
